import Mathlib

/-
Verification development for the gamelogs parsing/analysis engine
(src/gamelogs: model.py, messages.py, analyzer.py, parse.py).

The embedding renders the Python data model and the ResultAnalyzer state
machine as executable Lean definitions:
  * Faction / Role / Identity / Player / DayTime / Outcome / GameResult
    mirror model.py; the faction singletons of model.py (identity-compared
    dataclass instances with distinct names) become constructors of an
    inductive type, and nullable fields become Option.
  * Message mirrors the message dataclasses of messages.py, keeping the
    fields the analyzer consumes.
  * RState mirrors the mutable attributes of ResultAnalyzer.__init__;
    stepMessage embeds ResultAnalyzer.get_message as explicit state
    passing in the Except monad (a Python KeyError on a roster lookup
    becomes PErr.keyError; UnsupportedRoleError becomes
    PErr.unsupportedRole).
  * resultE embeds ResultAnalyzer.result; victorPhase / cascadeStep /
    setWonFlags embed its victor resolution and win-flag pass.
Machine integers stay Int (Python ints; day arithmetic can go negative).
-/

namespace Gamelogs

/-- Factions from model.py: identity-compared singletons, one per name,
plus the sentinel Faction named Unknown. -/
inductive Faction where
  | unknown
  | town
  | coven
  | apocalypse
  | arsonist
  | serial_killer
  | shroud
  | werewolf
  | vampire
deriving DecidableEq, Repr

/-- Role from model.py: a name plus a default faction (None for neutrals). -/
structure Role where
  name : String
  default_faction : Option Faction
deriving DecidableEq, Repr

/-- The by_bucket table of model.py, bucket names and member roles in
source order. -/
def by_bucket : List (String × List Role) :=
  [("Town Investigative",
    [⟨"Coroner", some .town⟩, ⟨"Investigator", some .town⟩, ⟨"Lookout", some .town⟩,
     ⟨"Psychic", some .town⟩, ⟨"Seer", some .town⟩, ⟨"Sheriff", some .town⟩,
     ⟨"Spy", some .town⟩, ⟨"Tracker", some .town⟩]),
   ("Town Protective",
    [⟨"Bodyguard", some .town⟩, ⟨"Cleric", some .town⟩, ⟨"Crusader", some .town⟩,
     ⟨"Oracle", some .town⟩, ⟨"Trapper", some .town⟩]),
   ("Town Killing",
    [⟨"Deputy", some .town⟩, ⟨"Trickster", some .town⟩, ⟨"Veteran", some .town⟩,
     ⟨"Vigilante", some .town⟩]),
   ("Town Support",
    [⟨"Admirer", some .town⟩, ⟨"Amnesiac", some .town⟩, ⟨"Retributionist", some .town⟩,
     ⟨"Socialite", some .town⟩, ⟨"Tavern Keeper", some .town⟩]),
   ("Town Power",
    [⟨"Jailor", some .town⟩, ⟨"Marshal", some .town⟩, ⟨"Mayor", some .town⟩,
     ⟨"Monarch", some .town⟩, ⟨"Prosecutor", some .town⟩]),
   ("Town Outlier",
    [⟨"Catalyst", some .town⟩, ⟨"Pilgrim", some .town⟩]),
   ("Coven Power",
    [⟨"Coven Leader", some .coven⟩, ⟨"Hex Master", some .coven⟩, ⟨"Witch", some .coven⟩]),
   ("Coven Killing",
    [⟨"Conjurer", some .coven⟩, ⟨"Jinx", some .coven⟩, ⟨"Ritualist", some .coven⟩]),
   ("Coven Deception",
    [⟨"Dreamweaver", some .coven⟩, ⟨"Enchanter", some .coven⟩, ⟨"Illusionist", some .coven⟩,
     ⟨"Medusa", some .coven⟩]),
   ("Coven Utility",
    [⟨"Necromancer", some .coven⟩, ⟨"Poisoner", some .coven⟩, ⟨"Potion Master", some .coven⟩,
     ⟨"Voodoo Master", some .coven⟩, ⟨"Wildling", some .coven⟩]),
   ("Coven Outlier",
    [⟨"Covenite", some .coven⟩, ⟨"Cultist", some .coven⟩]),
   ("Neutral Evil",
    [⟨"Doomsayer", none⟩, ⟨"Executioner", none⟩, ⟨"Jester", none⟩, ⟨"Pirate", none⟩]),
   ("Neutral Killing",
    [⟨"Arsonist", some .arsonist⟩, ⟨"Serial Killer", some .serial_killer⟩,
     ⟨"Shroud", some .shroud⟩, ⟨"Werewolf", some .werewolf⟩]),
   ("Neutral Apocalypse",
    [⟨"Baker", some .apocalypse⟩, ⟨"Berserker", some .apocalypse⟩,
     ⟨"Plaguebearer", some .apocalypse⟩, ⟨"Soul Collector", some .apocalypse⟩,
     ⟨"Famine", some .apocalypse⟩, ⟨"War", some .apocalypse⟩,
     ⟨"Pestilence", some .apocalypse⟩, ⟨"Death", some .apocalypse⟩]),
   ("Neutral Outlier",
    [⟨"Cursed Soul", none⟩, ⟨"Vampire", some .vampire⟩])]

/-- All roles in the table, in source order. -/
def allRoles : List Role := (by_bucket.map Prod.snd).flatten

/-- The by_name map of model.py: role name to role (names are unique in
the table, so first match is the map entry). -/
def by_name (s : String) : Option Role :=
  allRoles.find? (fun r => r.name == s)

/-- Identity from model.py: a role and a resolved faction.  The
constructor defaults faction to the sentinel Unknown, which is replaced
by the role default faction. -/
structure Identity where
  role : Role
  faction : Option Faction
deriving DecidableEq, Repr

/-- The Identity.__init__ logic: faction if faction != unknown else
role.default_faction. -/
def Identity.make (role : Role) (faction : Option Faction := some Faction.unknown) : Identity :=
  { role := role
    faction := if faction = some Faction.unknown then role.default_faction else faction }

/-- Player from model.py.  Death times are stored as the analyzer stores
them: a (day, phase-string) pair, phase being the literal "day" or
"night" used in analyzer.py. -/
structure Player where
  number : Int
  game_name : String
  account_name : String
  starting_ident : Identity
  ending_ident : Identity
  died : Option (Int × String) := none
  won : Bool := false
  hanged : Bool := false
deriving DecidableEq, Repr

/-- Time enum from model.py. -/
inductive Time where
  | DAY
  | NIGHT
deriving DecidableEq, Repr

/-- DayTime from model.py. -/
structure DayTime where
  day : Int := 1
  time : Time := .DAY
deriving DecidableEq, Repr

/-- Outcome enum from model.py. -/
inductive Outcome where
  | NORMAL
  | HEX_BOMB
  | DEATH
  | TT_COUNTDOWN
  | NO_DEATHS
deriving DecidableEq, Repr

/-- GameResult from model.py.  All seven fields, outcome included, are
required by the dataclass generated constructor (none has a default). -/
structure GameResult where
  players : List Player
  victor : Option Faction
  hunt_reached : Option DayTime
  modifiers : List String
  vip : Option Player
  ended : DayTime
  outcome : Outcome
deriving DecidableEq, Repr

/-- Failure modes of the engine.  invalidHTML, unsupportedRole and
notLog embed the three BadLogError subclasses of errors.py; keyError
embeds a Python KeyError escaping from a roster lookup in analyzer.py;
typeError embeds a Python TypeError from a constructor call; valueError
embeds a Python ValueError, e.g. the one int raises on the non-digit
speaker-number cell inside Chat.from_line, which to_messages does not
catch (it catches only NotMessage). -/
inductive PErr where
  | invalidHTML (msg : String)
  | unsupportedRole (name : String)
  | notLog
  | keyError (key : String)
  | typeError (msg : String)
  | valueError (msg : String)
deriving DecidableEq, Repr

/-- True exactly on the three typed BadLogError kinds of errors.py. -/
def isTypedError : PErr → Bool
  | .invalidHTML _ => true
  | .unsupportedRole _ => true
  | .notLog => true
  | _ => false

/-- Messages from messages.py, keeping the fields the analyzer consumes.
Chat, DeadChat, Whispering and StartJunk carry payloads the analyzer
never reads (HTML content is dropped). -/
inductive Message where
  | chat (who_number : Int) (who_name : String)
  | deadChat (who_number : Int) (who_name : String)
  | playerInfo (number : Int) (game_name : String) (account_name : String)
      (role : String × String) (prev_role : Option (String × String)) (is_vip : Bool)
  | whispering (who : String) (target : String)
  | leftAWill (who : String)
  | upped (who : String)
  | dayStart (day : Int)
  | nightStart (night : Int)
  | dayDeath (who : String)
  | nightDeath (who : String)
  | tribunal (who : String)
  | foundGuilty (who : String)
  | trialsRemaining (count : Int)
  | disconnect (who : String)
  | reconnect (who : String)
  | leftTown (who : String) (role : String)
  | deathPop
  | huntWarning (days_left : Int)
  | drawWarning
  | startJunk
deriving DecidableEq, Repr

/-- True exactly on PlayerInfo messages. -/
def Message.isPlayerInfoB : Message → Bool
  | .playerInfo _ _ _ _ _ _ => true
  | _ => false

/-- The mutable attributes set in ResultAnalyzer.__init__, in source
order.  The roster is an insertion-ordered association list standing for
the Python dict (name -> Player); townie_colours records roster keys
where the source records Player references; vip likewise records the
roster key of the VIP; dced is the duplicate-free list standing for the
disconnected-names set. -/
structure RState where
  players : List (String × Player) := []
  townie_colours : List (String × String) := []
  coven_colour : Option String := none
  dced : List String := []
  hunt_reached : Option Int := none
  in_trib : Bool := false
  trial_period : Bool := false
  time : Int × String := (1, "day")
  modifiers : List String := []
  death_popped : Bool := false
  draw_tomorrow : Bool := false
  vip : Option String := none
deriving DecidableEq, Repr

/-- The state built by ResultAnalyzer.__init__. -/
def initState : RState := {}

/-- Dict lookup self.players[who] (None standing for a raised KeyError). -/
def lookupN (who : String) : List (String × Player) → Option Player
  | [] => none
  | (k, p) :: rest => if k = who then some p else lookupN who rest

/-- Dict assignment self.players[key] = p: replace in place when the key
is present, append otherwise. -/
def updAssoc (key : String) (p : Player) : List (String × Player) → List (String × Player)
  | [] => [(key, p)]
  | (k, q) :: rest => if k = key then (key, p) :: rest else (k, q) :: updAssoc key p rest

/-- Set removal self.dced.remove(who) for the duplicate-free dced list. -/
def removeFirst (who : String) : List String → List String
  | [] => []
  | x :: rest => if x = who then rest else x :: removeFirst who rest

/-- ResultAnalyzer.kill: no effect when the player already has a death
recorded; otherwise clear draw_tomorrow and set the death time, backdated
to the previous night when last_night is set.  An absent roster key is
the KeyError of self.players[who]. -/
def killE (st : RState) (who : String) (last_night : Bool) : Except PErr RState :=
  match lookupN who st.players with
  | none => .error (.keyError who)
  | some player =>
    if player.died = none then
      .ok { st with
        draw_tomorrow := false
        players := updAssoc who
          { player with died := some (if last_night then (st.time.1 - 1, "night") else st.time) }
          st.players }
    else .ok st

/-- The kill loop of the DayStart(n) case: for dc in self.dced:
self.kill(dc, last_night=True). -/
def killAll (st : RState) : List String → Except PErr RState
  | [] => .ok st
  | dc :: rest =>
    match killE st dc true with
    | .ok st1 => killAll st1 rest
    | .error e => .error e

/-- The mutation applied to one miscoloured townie inside
judge_miscoloured_townies: the entry under the recorded key gets both
its identities reclassified to Coven. -/
def judgeTransform (name : String) (k : String) (q : Player) : Player :=
  if k = name then
    { q with
      starting_ident := { q.starting_ident with faction := some .coven }
      ending_ident := { q.ending_ident with faction := some .coven } }
  else q

/-- The loop body of judge_miscoloured_townies over the recorded
(townie, revealed colour) pairs: a colour equal to the recorded coven
colour reclassifies both identities of that player to Coven and appends
the Town Traitor modifier. -/
def judgeList (st : RState) : List (String × String) → RState
  | [] => st
  | (name, colour) :: rest =>
    if st.coven_colour = some colour then
      judgeList
        { st with
          players := st.players.map (fun kp => (kp.1, judgeTransform name kp.1 kp.2))
          modifiers := st.modifiers ++ ["Town Traitor"] }
        rest
    else judgeList st rest

/-- ResultAnalyzer.judge_miscoloured_townies. -/
def judge_miscoloured_townies (st : RState) : RState :=
  judgeList st st.townie_colours

/-- Python truthiness of self.hunt_reached in the HuntWarning case:
None and 0 are falsy, every other int is truthy. -/
def huntFalsy : Option Int → Bool
  | none => true
  | some n => decide (n = 0)

/-- The body of the PlayerInfo case after both role lookups succeeded:
the revealed faction colour is cosmetic unless the ending role is
Vampire, the VIP is recorded with its modifier, the player is put in the
roster, and the revealed colour is recorded against Coven or Town. -/
def handlePlayerInfoCore (st : RState) (number : Int) (game_name account_name : String)
    (role : String × String) (starting_ident ending_ident0 : Identity) (is_vip : Bool) :
    RState :=
  let faction_colour_shown := ending_ident0.faction
  let ending_ident :=
    if ending_ident0.role.name ≠ "Vampire" then
      { ending_ident0 with faction := starting_ident.faction }
    else ending_ident0
  let player : Player :=
    { number := number, game_name := game_name, account_name := account_name
      starting_ident := starting_ident, ending_ident := ending_ident }
  let st :=
    if is_vip then
      { st with vip := some game_name, modifiers := st.modifiers ++ ["VIP"] }
    else st
  let st := { st with players := updAssoc game_name player st.players }
  if faction_colour_shown = some Faction.coven then
    { st with coven_colour := some role.2 }
  else if faction_colour_shown = some Faction.town then
    { st with townie_colours := st.townie_colours ++ [(game_name, role.2)] }
  else st

/-- The PlayerInfo case of get_message: unknown role names raise
UnsupportedRoleError carrying the name (ending role first, then the
previous role); without a previous role the starting identity is the
ending identity. -/
def handlePlayerInfo (st : RState) (number : Int) (game_name account_name : String)
    (role : String × String) (prev_role : Option (String × String)) (is_vip : Bool) :
    Except PErr RState :=
  match by_name role.1 with
  | none => .error (.unsupportedRole role.1)
  | some er =>
    let ending_ident := Identity.make er
    match prev_role with
    | some pr =>
      match by_name pr.1 with
      | none => .error (.unsupportedRole pr.1)
      | some sr =>
        .ok (handlePlayerInfoCore st number game_name account_name role
              (Identity.make sr) ending_ident is_vip)
    | none =>
      .ok (handlePlayerInfoCore st number game_name account_name role
            ending_ident ending_ident is_vip)

/-- The wins-together rule of the LeftTown case: every player whose
starting role is Cursed Soul is marked as having won. -/
def cursedTransform (q : Player) : Player :=
  if q.starting_ident.role.name = "Cursed Soul" then { q with won := true } else q

/-- ResultAnalyzer.get_message: one transition of the state machine.
Message kinds without a case in the source match statement (chat, dead
chat, whispering, start junk, and TrialsRemaining when the trial flag is
already set) leave the state unchanged. -/
def stepMessage (st : RState) (m : Message) : Except PErr RState :=
  match m with
  | .playerInfo number game_name account_name role prev_role is_vip =>
    handlePlayerInfo st number game_name account_name role prev_role is_vip
  | .leftAWill who => killE st who false
  | .upped who => if st.in_trib then killE st who false else .ok st
  | .nightDeath who => killE st who true
  | .dayDeath who => killE st who false
  | .foundGuilty who =>
    match lookupN who st.players with
    | none => .error (.keyError who)
    | some p =>
      let st1 :=
        if p.ending_ident.role.name = "Jester" then
          { st with players := updAssoc who { p with won := true } st.players }
        else st
      killE st1 who false
  | .dayStart n =>
    if n = 1 then .ok (judge_miscoloured_townies st)
    else
      match killAll { st with time := (n, "day"), trial_period := false } st.dced with
      | .ok st2 => .ok { st2 with dced := [] }
      | .error e => .error e
  | .nightStart n =>
    .ok { st with time := (n, "night"), death_popped := false, in_trib := false }
  | .leftTown who _ =>
    match lookupN who st.players with
    | none => .error (.keyError who)
    | some them =>
      if them.starting_ident.role.name = "Cursed Soul" then
        .ok { st with players := st.players.map (fun kp => (kp.1, cursedTransform kp.2)) }
      else
        .ok { st with players := updAssoc who { them with won := true } st.players }
  | .huntWarning days_left =>
    if huntFalsy st.hunt_reached then
      .ok { st with hunt_reached := some (st.time.1 + days_left - 3) }
    else .ok st
  | .tribunal _ => .ok { st with in_trib := true }
  | .disconnect who =>
    .ok { st with dced := if who ∈ st.dced then st.dced else st.dced ++ [who] }
  | .reconnect who =>
    if who ∈ st.dced then .ok { st with dced := removeFirst who st.dced }
    else
      match lookupN who st.players with
      | none => .error (.keyError who)
      | some p => .ok { st with players := updAssoc who { p with died := none } st.players }
  | .trialsRemaining _ =>
    if st.trial_period then .ok st else .ok { st with trial_period := true }
  | .deathPop => .ok { st with death_popped := true }
  | .drawWarning => .ok { st with draw_tomorrow := true }
  | _ => .ok st

/-- The message loop of parse in parse.py: feed the messages in order,
stopping at the first raised error. -/
def runMessages (st : RState) : List Message → Except PErr RState
  | [] => .ok st
  | m :: rest =>
    match stepMessage st m with
    | .ok st1 => runMessages st1 rest
    | .error e => .error e

/-- is_evil_raiser from analyzer.py: Necromancer, or Retributionist with
a faction other than Town (Python operator precedence binds the and
tighter than the or). -/
def is_evil_raiser (ident : Identity) : Bool :=
  decide (ident.role.name = "Necromancer") ||
    (decide (ident.role.name = "Retributionist") && decide (ident.faction ≠ some Faction.town))

/-- The players of the roster in insertion order, self.players.values(). -/
def rosterValues (st : RState) : List Player :=
  st.players.map Prod.snd

/-- The in_game set of result(): distinct ending factions of players
with no recorded death, with None discarded.  Rendered as a
duplicate-free list; every set operation applied to it (emptiness,
cardinality, membership, set equality, popping the sole element) is
order-independent. -/
def inGame (st : RState) : List (Option Faction) :=
  (((rosterValues st).filter (fun x => decide (x.died = none))).map
      (fun x => x.ending_ident.faction)).dedup.filter (fun f => decide (f ≠ none))

/-- Python set equality for the duplicate-free faction lists. -/
def eqAsSet (l1 l2 : List (Option Faction)) : Bool :=
  l1.all (fun x => decide (x ∈ l2)) && l2.all (fun x => decide (x ∈ l1))

/-- The last_town list of the cascade: living players whose ending
faction is Town. -/
def aliveTown (st : RState) : List Player :=
  (rosterValues st).filter
    (fun x => decide (x.died = none) && decide (x.ending_ident.faction = some Faction.town))

/-- The comparison self.hunt_reached == self.time[0] - 3: a None on the
left never equals an int. -/
def huntEq : Option Int → Int → Bool
  | none, _ => false
  | some h, n => decide (h = n)

/-- Condition of cascade branch d (indoctrination): in_game is exactly
Town, Coven, exactly one living Town player, and some player started as
Cultist. -/
def indoctrinationCond (st : RState) (ig : List (Option Faction)) : Bool :=
  eqAsSet ig [some .town, some .coven] &&
    decide ((aliveTown st).length = 1) &&
    (rosterValues st).any (fun x => decide (x.starting_ident.role.name = "Cultist"))

/-- Condition of cascade branch e (vampire conversion): in_game is
exactly Town, Vampire and at most three living Town players. -/
def vampConversionCond (st : RState) (ig : List (Option Faction)) : Bool :=
  eqAsSet ig [some .town, some .vampire] && decide ((aliveTown st).length ≤ 3)

/-- The per-player reclassification of cascade branches d and e: a
living player with ending faction Town gets ending faction f. -/
def convertTransform (f : Option Faction) (q : Player) : Player :=
  if decide (q.died = none) && decide (q.ending_ident.faction = some Faction.town) then
    { q with ending_ident := { q.ending_ident with faction := f } }
  else q

/-- The reclassification loop of branches d and e: every living player
with ending faction Town gets ending faction f. -/
def convertAliveTown (f : Option Faction) (st : RState) : RState :=
  { st with players := st.players.map (fun kp => (kp.1, convertTransform f kp.2)) }

/-- The tie-break cascade of result(), entered with victor still the
Unknown sentinel: death-pop, hunt countdown, no-deaths draw,
indoctrination, vampire conversion, then the Hex Master loop, which
breaks at the first player whose ending role is Hex Master and awards
Coven when that player is alive or some living player is an evil
raiser. -/
def cascadeStep (st : RState) (ig : List (Option Faction)) : Option Faction × RState :=
  if st.death_popped then (some .apocalypse, st)
  else if huntEq st.hunt_reached (st.time.1 - 3) then (some .coven, st)
  else if st.draw_tomorrow then (none, st)
  else if indoctrinationCond st ig then (some .coven, convertAliveTown (some .coven) st)
  else if vampConversionCond st ig then (some .vampire, convertAliveTown (some .vampire) st)
  else
    match (rosterValues st).find? (fun p => decide (p.ending_ident.role.name = "Hex Master")) with
    | some hm =>
      if decide (hm.died = none) ||
          (rosterValues st).any (fun x => decide (x.died = none) && is_evil_raiser x.ending_ident) then
        (some .coven, st)
      else (some Faction.unknown, st)
    | none => (some Faction.unknown, st)

/-- The victor resolution of result(), with the cascade as a parameter:
victor starts as the Unknown sentinel, an empty in_game makes the game a
draw, a singleton in_game elects its sole member, and the cascade runs
exactly when victor is still the sentinel afterwards. -/
def victorPhaseWith (casc : RState → List (Option Faction) → Option Faction × RState)
    (st : RState) : Option Faction × RState :=
  let ig := inGame st
  let victor : Option Faction := some Faction.unknown
  let victor := if ig.isEmpty then none else if ig.length = 1 then ig.headD none else victor
  if victor = some Faction.unknown then casc st ig else (victor, st)

/-- The victor resolution of result() with its actual cascade. -/
def victorPhase : RState → Option Faction × RState :=
  victorPhaseWith cascadeStep

/-- The per-player win-flag assignment of the final pass of result(). -/
def wonTransform (victor : Option Faction) (q : Player) : Player :=
  if q.ending_ident.faction = victor then { q with won := true } else q

/-- The final win-flag pass of result(): every player whose ending
faction equals the victor is marked as having won. -/
def setWonFlags (victor : Option Faction) (st : RState) : RState :=
  { st with players := st.players.map (fun kp => (kp.1, wonTransform victor kp.2)) }

/-- ResultAnalyzer.result: fewer than five players is NotLogError;
otherwise the victor is resolved, the win flags are set, and the final
statement calls the GameResult constructor with six positional arguments
(players, victor, hunt_reached, modifiers, vip, time) although the
GameResult dataclass of model.py requires a seventh field, outcome,
which has no default, so the constructor call raises TypeError. -/
def resultE (st : RState) : Except PErr GameResult :=
  if st.players.length < 5 then .error .notLog
  else
    let vs := victorPhase st
    let _ := setWonFlags vs.1 vs.2
    .error (.typeError "GameResult missing required positional argument: outcome")

/-- parse with the ResultAnalyzer, at the message level: feed every
message, then ask for the result. -/
def parseResultE (msgs : List Message) : Except PErr GameResult :=
  match runMessages initState msgs with
  | .ok st => resultE st
  | .error e => .error e

/-- The classification outcome of one line in Message.from_line, as seen
by to_messages: a typed message; or NotMessage raised by every
recognizer, which to_messages catches and the line is silently skipped;
or an untyped exception escaping a recognizer before it rejects the
line (e.g. the ValueError from int on a malformed speaker-number cell
in Chat.from_line, or a TypeError on a None text attribute), which
to_messages does NOT catch and which propagates to the caller. -/
inductive LineClass where
  | msg (m : Message)
  | skip
  | crash (e : PErr)
deriving DecidableEq, Repr

/-- The loop of parse over to_messages, with the classification outcome
per line: to_messages is a generator consumed lazily, so each line is
classified in turn, a NotMessage line is dropped and the loop goes on,
a classifier crash propagates at the moment the generator is advanced,
and a recognized message is fed to the analyzer immediately (whose own
errors propagate before any later line is classified). -/
def runLines (st : RState) : List LineClass → Except PErr RState
  | [] => .ok st
  | .skip :: rest => runLines st rest
  | .crash e :: _ => .error e
  | .msg m :: rest =>
    match stepMessage st m with
    | .ok st1 => runLines st1 rest
    | .error e => .error e

/-- parse with the ResultAnalyzer at the line level: consume every line,
then ask for the result. -/
def parseLines (lines : List LineClass) : Except PErr GameResult :=
  match runLines initState lines with
  | .ok st => resultE st
  | .error e => .error e

/-- The analyzer state after a message list, for building concrete
states (total: falls back to the initial state on an error, which the
uses below never hit). -/
def stateOf (msgs : List Message) : RState :=
  match runMessages initState msgs with
  | .ok st => st
  | .error _ => initState

/-- A placeholder player for total lookups in concrete statements. -/
def dummyPlayer : Player :=
  { number := 0, game_name := "", account_name := ""
    starting_ident := { role := { name := "", default_faction := none }, faction := none }
    ending_ident := { role := { name := "", default_faction := none }, faction := none } }

/-- A PlayerInfo message with the given seat, name and role, no previous
role, black colour, not VIP. -/
def piMsg (num : Int) (nm : String) (role : String) : Message :=
  .playerInfo num nm (nm ++ "0") (role, "000000") none false

/-- True exactly on the error kinds a get_message transition can raise. -/
def isStepError : PErr → Bool
  | .unsupportedRole _ => true
  | .keyError _ => true
  | _ => false

/-- True exactly on the error kinds the result phase can raise. -/
def isResultPhaseError : PErr → Bool
  | .notLog => true
  | .typeError _ => true
  | _ => false

/-- Five recognized players, the five-player scenario of the spec. -/
def c1msgs : List Message :=
  [piMsg 1 "Alice" "Sheriff", piMsg 2 "Bob" "Jailor", piMsg 3 "Cleo" "Coven Leader",
   piMsg 4 "Dana" "Poisoner", piMsg 5 "Wren" "Witch"]

/-- One recognized player only. -/
def c3amsgs : List Message := [piMsg 1 "Solo" "Sheriff"]

/-- A stream with no PlayerInfo messages at all. -/
def c3bmsgs : List Message := [Message.dayStart 2]

/-- Five players, both Town players dead: one faction left alive. -/
def c4msgs : List Message :=
  [piMsg 1 "Alice" "Sheriff", piMsg 2 "Bob" "Jailor", piMsg 3 "Cleo" "Coven Leader",
   piMsg 4 "Dana" "Poisoner", piMsg 5 "Wren" "Witch",
   .nightDeath "Alice", .nightDeath "Bob"]

/-- Six players reaching the Hex Master cascade branch with the Hex
Master dead and no living evil raiser. -/
def c5cmsgs : List Message :=
  [piMsg 1 "Ann" "Sheriff", piMsg 2 "Ben" "Jailor", piMsg 3 "Hera" "Hex Master",
   piMsg 4 "Pia" "Poisoner", piMsg 5 "Arn" "Arsonist", piMsg 6 "Sel" "Serial Killer",
   .nightDeath "Hera", .nightDeath "Pia", .nightDeath "Ben"]

/-- Five players reaching the Hex Master cascade branch with the Hex
Master alive. -/
def c5wmsgs : List Message :=
  [piMsg 1 "Ann" "Sheriff", piMsg 2 "Ben" "Jailor", piMsg 3 "Hera" "Hex Master",
   piMsg 4 "Pia" "Poisoner", piMsg 5 "Arn" "Arsonist"]

/-- The first Hex Master of the c5wmsgs state. -/
def c5whm : Player :=
  ((rosterValues (stateOf c5wmsgs)).find?
    (fun p => decide (p.ending_ident.role.name = "Hex Master"))).getD dummyPlayer

/-- The hunt scenario: a HuntWarning with three days left on day five,
stream ending on day eight with Town and Coven both alive. -/
def c6wmsgs : List Message :=
  [piMsg 1 "Ann" "Sheriff", piMsg 2 "Ben" "Jailor", piMsg 3 "Cleo" "Coven Leader",
   piMsg 4 "Pia" "Poisoner", piMsg 5 "Wren" "Witch",
   .dayStart 5, .huntWarning 3, .dayStart 8]

/-- Two players, one of them already dead. -/
def c8msgs : List Message :=
  [piMsg 1 "Vic" "Sheriff", piMsg 2 "Ben" "Jailor", .dayDeath "Vic"]

/-- The dead player of the c8msgs state. -/
def c8p : Player := (lookupN "Vic" (stateOf c8msgs).players).getD dummyPlayer

/-- Five players, a Jester among them, all dead at stream end: a draw. -/
def c10msgs : List Message :=
  [piMsg 1 "Ann" "Sheriff", piMsg 2 "Ben" "Jailor", piMsg 3 "Cleo" "Coven Leader",
   piMsg 4 "Pia" "Poisoner", piMsg 5 "Jess" "Jester",
   .nightDeath "Ann", .nightDeath "Ben", .nightDeath "Cleo", .nightDeath "Pia",
   .nightDeath "Jess"]

/-- The Jester entry after the win-flag pass of the c10msgs state. -/
def c10jess : Player :=
  (lookupN "Jess" (setWonFlags none (stateOf c10msgs)).players).getD dummyPlayer

theorem lookupN_updAssoc (who key : String) (p : Player) (ps : List (String × Player)) :
    lookupN who (updAssoc key p ps) = if key = who then some p else lookupN who ps := by
  induction ps with
  | nil => simp [updAssoc, lookupN]
  | cons kq rest ih =>
    obtain ⟨k, q⟩ := kq
    by_cases hk : k = key
    · subst hk
      by_cases hw : k = who <;> simp [updAssoc, lookupN, hw]
    · by_cases hw : k = who
      · subst hw
        have hk' : ¬ key = k := fun h => hk h.symm
        simp [updAssoc, lookupN, hk, hk']
      · simp [updAssoc, lookupN, hk, hw, ih]

theorem lookupN_mapVals (who : String) (f : String → Player → Player)
    (ps : List (String × Player)) :
    lookupN who (ps.map (fun kp => (kp.1, f kp.1 kp.2))) = (lookupN who ps).map (f who) := by
  induction ps with
  | nil => simp [lookupN]
  | cons kq rest ih =>
    obtain ⟨k, q⟩ := kq
    by_cases hw : k = who
    · subst hw; simp [lookupN]
    · simp [lookupN, hw, ih]

theorem lookupN_mem (who : String) (p : Player) (ps : List (String × Player))
    (h : lookupN who ps = some p) : (who, p) ∈ ps := by
  induction ps with
  | nil => simp [lookupN] at h
  | cons kq rest ih =>
    obtain ⟨k, q⟩ := kq
    by_cases hw : k = who
    · subst hw
      simp [lookupN] at h
      simp [h]
    · simp [lookupN, hw] at h
      exact List.mem_cons_of_mem _ (ih h)

theorem mem_updAssoc (kp : String × Player) (key : String) (p : Player)
    (ps : List (String × Player)) (h : kp ∈ updAssoc key p ps) :
    kp = (key, p) ∨ kp ∈ ps := by
  induction ps with
  | nil => simp [updAssoc] at h; simp [h]
  | cons kq rest ih =>
    obtain ⟨k, q⟩ := kq
    by_cases hk : k = key
    · subst hk
      simp [updAssoc] at h
      rcases h with h | h
      · left; simp [h]
      · right; simp [h]
    · simp [updAssoc, hk] at h
      rcases h with h | h
      · right; simp [h]
      · rcases ih h with h' | h'
        · left; exact h'
        · right; exact List.mem_cons_of_mem _ h'

theorem killE_error (st : RState) (w : String) (ln : Bool) (e : PErr)
    (h : killE st w ln = .error e) : e = .keyError w ∧ lookupN w st.players = none := by
  unfold killE at h
  cases hl : lookupN w st.players with
  | none => rw [hl] at h; simp at h; exact ⟨h.symm, rfl⟩
  | some q =>
    rw [hl] at h
    by_cases hd : q.died = none <;> simp [hd] at h

theorem killE_ok_died (st st' : RState) (w : String) (ln : Bool) (who : String)
    (p : Player) (d : Int × String)
    (h : killE st w ln = .ok st') (hp : lookupN who st.players = some p)
    (hd : p.died = some d) : lookupN who st'.players = some p := by
  unfold killE at h
  cases hl : lookupN w st.players with
  | none => rw [hl] at h; simp at h
  | some q =>
    rw [hl] at h
    by_cases hq : q.died = none
    · simp [hq] at h
      subst h
      simp only [lookupN_updAssoc]
      by_cases hw : w = who
      · subst hw
        rw [hl] at hp
        cases hp
        rw [hd] at hq
        simp at hq
      · simp [hw, hp]
    · simp [hq] at h
      subst h
      exact hp

theorem killAll_error (l : List String) (st : RState) (e : PErr)
    (h : killAll st l = .error e) : ∃ w, e = .keyError w := by
  induction l generalizing st with
  | nil => simp [killAll] at h
  | cons dc rest ih =>
    unfold killAll at h
    cases hk : killE st dc true with
    | ok st1 => rw [hk] at h; exact ih st1 h
    | error e2 =>
      rw [hk] at h
      injection h with he
      exact ⟨dc, he ▸ (killE_error st dc true e2 hk).1⟩

theorem killAll_ok_died (l : List String) (st st' : RState) (who : String)
    (p : Player) (d : Int × String)
    (h : killAll st l = .ok st') (hp : lookupN who st.players = some p)
    (hd : p.died = some d) : lookupN who st'.players = some p := by
  induction l generalizing st with
  | nil => simp [killAll] at h; rw [← h]; exact hp
  | cons dc rest ih =>
    unfold killAll at h
    cases hk : killE st dc true with
    | ok st1 =>
      rw [hk] at h
      exact ih st1 h (killE_ok_died st st1 dc true who p d hk hp hd)
    | error e' => rw [hk] at h; cases h

theorem judgeTransform_died (name k : String) (q : Player) :
    (judgeTransform name k q).died = q.died := by
  unfold judgeTransform
  split <;> rfl

theorem judgeTransform_won (name k : String) (q : Player) :
    (judgeTransform name k q).won = q.won := by
  unfold judgeTransform
  split <;> rfl

theorem judgeList_lookup (who : String) (tc : List (String × String)) (st : RState)
    (p : Player) (hp : lookupN who st.players = some p) :
    ∃ p', lookupN who (judgeList st tc).players = some p' ∧
      p'.died = p.died ∧ p'.won = p.won := by
  induction tc generalizing st p with
  | nil => exact ⟨p, hp, rfl, rfl⟩
  | cons nc rest ih =>
    obtain ⟨name, colour⟩ := nc
    unfold judgeList
    split
    · have hl1 : lookupN who
          (st.players.map (fun kp => (kp.1, judgeTransform name kp.1 kp.2)))
          = some (judgeTransform name who p) := by
        rw [lookupN_mapVals, hp]; rfl
      obtain ⟨p', h1, h2, h3⟩ := ih
        { st with
          players := st.players.map (fun kp => (kp.1, judgeTransform name kp.1 kp.2))
          modifiers := st.modifiers ++ ["Town Traitor"] }
        (judgeTransform name who p) hl1
      exact ⟨p', h1, by rw [h2, judgeTransform_died], by rw [h3, judgeTransform_won]⟩
    · exact ih st p hp

theorem lookupN_mapSnd (who : String) (f : Player → Player) (ps : List (String × Player)) :
    lookupN who (ps.map (fun kp => (kp.1, f kp.2))) = (lookupN who ps).map f := by
  induction ps with
  | nil => simp [lookupN]
  | cons kq rest ih =>
    obtain ⟨k, q⟩ := kq
    by_cases hw : k = who
    · subst hw; simp [lookupN]
    · simp [lookupN, hw, ih]

theorem cursedTransform_died (q : Player) : (cursedTransform q).died = q.died := by
  unfold cursedTransform
  split <;> rfl

theorem died_keep (st' : RState) (who : String) (p p' : Player) (d : Int × String)
    (hsame : lookupN who st'.players = some p) (hp' : lookupN who st'.players = some p')
    (hd : p.died = some d) : p'.died = some d := by
  rw [hsame] at hp'
  injection hp' with h2
  rw [← h2, hd]

/-- C8: once a player has a death DayTime recorded, a further message,
PlayerInfo aside, either keeps it unchanged or clears it to null, and it
is cleared exactly on a Reconnect naming that player while the player is
not marked disconnected.  (A repeated PlayerInfo for an already used
game name replaces the roster entry with a freshly constructed Player
object in the source; the original Player object is discarded, not
mutated, so the claim about a given player is stated over the other
message kinds.)  No message overwrites a set death time with a different
time: ResultAnalyzer.kill is guarded by the not-player.died check, so
the superseding case the claim allows never occurs. -/
theorem deathTimeStability (st st' : RState) (m : Message) (who : String)
    (p p' : Player) (d : Int × String)
    (hnp : m.isPlayerInfoB = false)
    (hstep : stepMessage st m = .ok st')
    (hp : lookupN who st.players = some p)
    (hd : p.died = some d)
    (hp' : lookupN who st'.players = some p') :
    p'.died = some d ∨ (p'.died = none ∧ m = .reconnect who ∧ who ∉ st.dced) := by
  cases m with
  | chat a b =>
    simp only [stepMessage] at hstep
    injection hstep with h2
    subst h2
    exact Or.inl (died_keep _ who p p' d hp hp' hd)
  | deadChat a b =>
    simp only [stepMessage] at hstep
    injection hstep with h2
    subst h2
    exact Or.inl (died_keep _ who p p' d hp hp' hd)
  | whispering a b =>
    simp only [stepMessage] at hstep
    injection hstep with h2
    subst h2
    exact Or.inl (died_keep _ who p p' d hp hp' hd)
  | startJunk =>
    simp only [stepMessage] at hstep
    injection hstep with h2
    subst h2
    exact Or.inl (died_keep _ who p p' d hp hp' hd)
  | deathPop =>
    simp only [stepMessage] at hstep
    injection hstep with h2
    subst h2
    exact Or.inl (died_keep _ who p p' d hp hp' hd)
  | drawWarning =>
    simp only [stepMessage] at hstep
    injection hstep with h2
    subst h2
    exact Or.inl (died_keep _ who p p' d hp hp' hd)
  | tribunal w =>
    simp only [stepMessage] at hstep
    injection hstep with h2
    subst h2
    exact Or.inl (died_keep _ who p p' d hp hp' hd)
  | disconnect w =>
    simp only [stepMessage] at hstep
    injection hstep with h2
    subst h2
    exact Or.inl (died_keep _ who p p' d hp hp' hd)
  | nightStart n =>
    simp only [stepMessage] at hstep
    injection hstep with h2
    subst h2
    exact Or.inl (died_keep _ who p p' d hp hp' hd)
  | huntWarning dl =>
    simp only [stepMessage] at hstep
    split at hstep <;>
    · injection hstep with h2
      subst h2
      exact Or.inl (died_keep _ who p p' d hp hp' hd)
  | trialsRemaining c =>
    simp only [stepMessage] at hstep
    split at hstep <;>
    · injection hstep with h2
      subst h2
      exact Or.inl (died_keep _ who p p' d hp hp' hd)
  | playerInfo a b c r pr v =>
    simp [Message.isPlayerInfoB] at hnp
  | leftAWill w =>
    simp only [stepMessage] at hstep
    exact Or.inl (died_keep st' who p p' d
      (killE_ok_died st st' w false who p d hstep hp hd) hp' hd)
  | dayDeath w =>
    simp only [stepMessage] at hstep
    exact Or.inl (died_keep st' who p p' d
      (killE_ok_died st st' w false who p d hstep hp hd) hp' hd)
  | nightDeath w =>
    simp only [stepMessage] at hstep
    exact Or.inl (died_keep st' who p p' d
      (killE_ok_died st st' w true who p d hstep hp hd) hp' hd)
  | upped w =>
    simp only [stepMessage] at hstep
    split at hstep
    · exact Or.inl (died_keep st' who p p' d
        (killE_ok_died st st' w false who p d hstep hp hd) hp' hd)
    · injection hstep with h2
      subst h2
      exact Or.inl (died_keep _ who p p' d hp hp' hd)
  | foundGuilty w =>
    simp only [stepMessage] at hstep
    cases hl : lookupN w st.players with
    | none => simp [hl] at hstep
    | some q =>
      simp only [hl] at hstep
      by_cases hj : q.ending_ident.role.name = "Jester"
      · rw [if_pos hj] at hstep
        by_cases hw : who = w
        · subst hw
          have h3 : p = q := by rw [hp] at hl; exact Option.some.inj hl
          subst h3
          have hmid : lookupN who
              ({ st with players := updAssoc who { p with won := true } st.players }).players
              = some { p with won := true } := by
            show lookupN who (updAssoc who { p with won := true } st.players)
              = some { p with won := true }
            rw [lookupN_updAssoc]
            simp
          exact Or.inl (died_keep st' who { p with won := true } p' d
            (killE_ok_died _ st' who false who { p with won := true } d hstep hmid hd) hp' hd)
        · have hw2 : ¬ w = who := fun h => hw h.symm
          have hmid : lookupN who
              ({ st with players := updAssoc w { q with won := true } st.players }).players
              = some p := by
            show lookupN who (updAssoc w { q with won := true } st.players) = some p
            rw [lookupN_updAssoc, if_neg hw2]
            exact hp
          exact Or.inl (died_keep st' who p p' d
            (killE_ok_died _ st' w false who p d hstep hmid hd) hp' hd)
      · rw [if_neg hj] at hstep
        exact Or.inl (died_keep st' who p p' d
          (killE_ok_died st st' w false who p d hstep hp hd) hp' hd)
  | dayStart n =>
    simp only [stepMessage] at hstep
    split at hstep
    · injection hstep with h2
      subst h2
      obtain ⟨p2, hp2, hdied2, _⟩ :=
        judgeList_lookup who st.townie_colours st p hp
      refine Or.inl (died_keep _ who p2 p' d hp2 hp' ?_)
      rw [hdied2, hd]
    · cases hka : killAll { st with time := (n, "day"), trial_period := false } st.dced with
      | ok st2 =>
        simp only [hka] at hstep
        injection hstep with h2
        subst h2
        exact Or.inl (died_keep _ who p p' d
          (killAll_ok_died st.dced _ st2 who p d hka hp hd) hp' hd)
      | error e2 => simp [hka] at hstep
  | leftTown w r =>
    simp only [stepMessage] at hstep
    cases hl : lookupN w st.players with
    | none => simp [hl] at hstep
    | some them =>
      simp only [hl] at hstep
      by_cases hc : them.starting_ident.role.name = "Cursed Soul"
      · rw [if_pos hc] at hstep
        injection hstep with h2
        subst h2
        have hlk : lookupN who (st.players.map (fun kp => (kp.1, cursedTransform kp.2)))
            = some (cursedTransform p) := by
          rw [lookupN_mapSnd who cursedTransform st.players, hp]
          rfl
        refine Or.inl (died_keep _ who (cursedTransform p) p' d hlk hp' ?_)
        rw [cursedTransform_died, hd]
      · rw [if_neg hc] at hstep
        injection hstep with h2
        subst h2
        by_cases hw : who = w
        · subst hw
          have h3 : p = them := by rw [hp] at hl; exact Option.some.inj hl
          subst h3
          have hlk : lookupN who
              ({ st with players := updAssoc who { p with won := true } st.players }).players
              = some { p with won := true } := by
            show lookupN who (updAssoc who { p with won := true } st.players)
              = some { p with won := true }
            rw [lookupN_updAssoc]
            simp
          exact Or.inl (died_keep _ who { p with won := true } p' d hlk hp' hd)
        · have hw2 : ¬ w = who := fun h => hw h.symm
          have hlk : lookupN who
              ({ st with players := updAssoc w { them with won := true } st.players }).players
              = some p := by
            show lookupN who (updAssoc w { them with won := true } st.players) = some p
            rw [lookupN_updAssoc, if_neg hw2]
            exact hp
          exact Or.inl (died_keep _ who p p' d hlk hp' hd)
  | reconnect w =>
    simp only [stepMessage] at hstep
    split at hstep
    · injection hstep with h2
      subst h2
      exact Or.inl (died_keep _ who p p' d hp hp' hd)
    · rename_i hdc
      cases hl : lookupN w st.players with
      | none => simp [hl] at hstep
      | some q =>
        simp only [hl] at hstep
        injection hstep with h2
        subst h2
        by_cases hw : who = w
        · subst hw
          have h3 : p = q := by rw [hp] at hl; exact Option.some.inj hl
          subst h3
          have hlk : lookupN who
              ({ st with players := updAssoc who { p with died := none } st.players }).players
              = some { p with died := none } := by
            show lookupN who (updAssoc who { p with died := none } st.players)
              = some { p with died := none }
            rw [lookupN_updAssoc]
            simp
          rw [hlk] at hp'
          injection hp' with h4
          right
          exact ⟨by rw [← h4], rfl, hdc⟩
        · have hw2 : ¬ w = who := fun h => hw h.symm
          have hlk : lookupN who
              ({ st with players := updAssoc w { q with died := none } st.players }).players
              = some p := by
            show lookupN who (updAssoc w { q with died := none } st.players) = some p
            rw [lookupN_updAssoc, if_neg hw2]
            exact hp
          exact Or.inl (died_keep _ who p p' d hlk hp' hd)

end Gamelogs

namespace Gamelogs

theorem stepError (st : RState) (m : Message) (e : PErr)
    (h : stepMessage st m = .error e) : isStepError e = true := by
  cases m with
  | chat a b => simp [stepMessage] at h
  | deadChat a b => simp [stepMessage] at h
  | whispering a b => simp [stepMessage] at h
  | startJunk => simp [stepMessage] at h
  | deathPop => simp [stepMessage] at h
  | drawWarning => simp [stepMessage] at h
  | tribunal w => simp [stepMessage] at h
  | disconnect w => simp [stepMessage] at h
  | nightStart n => simp [stepMessage] at h
  | huntWarning dl =>
    simp only [stepMessage] at h
    split at h <;> simp at h
  | trialsRemaining c =>
    simp only [stepMessage] at h
    split at h <;> simp at h
  | leftAWill w =>
    simp only [stepMessage] at h
    rw [(killE_error st w false e h).1]; rfl
  | dayDeath w =>
    simp only [stepMessage] at h
    rw [(killE_error st w false e h).1]; rfl
  | nightDeath w =>
    simp only [stepMessage] at h
    rw [(killE_error st w true e h).1]; rfl
  | upped w =>
    simp only [stepMessage] at h
    split at h
    · rw [(killE_error st w false e h).1]; rfl
    · simp at h
  | foundGuilty w =>
    simp only [stepMessage] at h
    cases hl : lookupN w st.players with
    | none =>
      simp only [hl] at h
      injection h with h2
      rw [← h2]; rfl
    | some q =>
      simp only [hl] at h
      split at h
      · rw [(killE_error _ w false e h).1]; rfl
      · rw [(killE_error _ w false e h).1]; rfl
  | dayStart n =>
    simp only [stepMessage] at h
    split at h
    · simp at h
    · cases hka : killAll { st with time := (n, "day"), trial_period := false } st.dced with
      | ok st2 => simp [hka] at h
      | error e2 =>
        simp only [hka] at h
        injection h with h2
        obtain ⟨w, hw⟩ := killAll_error _ _ e2 hka
        rw [← h2, hw]; rfl
  | leftTown w r =>
    simp only [stepMessage] at h
    cases hl : lookupN w st.players with
    | none =>
      simp only [hl] at h
      injection h with h2
      rw [← h2]; rfl
    | some them =>
      simp only [hl] at h
      split at h <;> simp at h
  | reconnect w =>
    simp only [stepMessage] at h
    split at h
    · simp at h
    · cases hl : lookupN w st.players with
      | none =>
        simp only [hl] at h
        injection h with h2
        rw [← h2]; rfl
      | some q =>
        simp only [hl] at h
        simp at h
  | playerInfo a gn an role pr v =>
    simp only [stepMessage, handlePlayerInfo] at h
    cases hr : by_name role.1 with
    | none =>
      simp only [hr] at h
      injection h with h2
      rw [← h2]; rfl
    | some er =>
      simp only [hr] at h
      cases pr with
      | none => simp at h
      | some prr =>
        cases hr2 : by_name prr.1 with
        | none =>
          simp only [hr2] at h
          injection h with h2
          rw [← h2]; rfl
        | some sr =>
          simp only [hr2] at h
          simp at h

theorem resultError (st : RState) (e : PErr)
    (h : resultE st = .error e) : isResultPhaseError e = true := by
  unfold resultE at h
  split at h
  · injection h with h2
    rw [← h2]; rfl
  · injection h with h2
    rw [← h2]; rfl

theorem skipLine (a b : List LineClass) (st : RState) :
    runLines st (a ++ .skip :: b) = runLines st (a ++ b) := by
  induction a generalizing st with
  | nil => rfl
  | cons lc rest ih =>
    cases lc with
    | skip => simp only [List.cons_append, runLines]; exact ih st
    | crash e => simp only [List.cons_append, runLines]
    | msg m =>
      simp only [List.cons_append, runLines]
      cases hs : stepMessage st m with
      | ok st1 => exact ih st1
      | error e => rfl

theorem runLines_error (lines : List LineClass) (st : RState) (e : PErr)
    (h : runLines st lines = .error e) :
    LineClass.crash e ∈ lines ∨ isStepError e = true := by
  induction lines generalizing st with
  | nil => simp [runLines] at h
  | cons lc rest ih =>
    cases lc with
    | skip =>
      simp only [runLines] at h
      rcases ih st h with h1 | h1
      · exact Or.inl (List.mem_cons_of_mem _ h1)
      · exact Or.inr h1
    | crash e2 =>
      simp only [runLines] at h
      injection h with he
      exact Or.inl (by rw [← he]; exact List.mem_cons_self _ _)
    | msg m =>
      simp only [runLines] at h
      cases hs : stepMessage st m with
      | ok st1 =>
        rw [hs] at h
        rcases ih st1 h with h1 | h1
        · exact Or.inl (List.mem_cons_of_mem _ h1)
        · exact Or.inr h1
      | error e2 =>
        rw [hs] at h
        injection h with he
        exact Or.inr (he ▸ stepError st m e2 hs)

theorem parseLines_error_enum (lines : List LineClass) (e : PErr)
    (h : parseLines lines = .error e) :
    LineClass.crash e ∈ lines ∨ isStepError e = true ∨ isResultPhaseError e = true := by
  unfold parseLines at h
  cases hr : runLines initState lines with
  | ok st =>
    simp only [hr] at h
    exact Or.inr (Or.inr (resultError st e h))
  | error e2 =>
    simp only [hr] at h
    injection h with he
    rcases runLines_error lines initState e2 hr with h1 | h1
    · exact Or.inl (he ▸ h1)
    · exact Or.inr (Or.inl (he ▸ h1))

end Gamelogs

namespace Gamelogs

theorem updAssoc_length (key : String) (q p : Player) (ps : List (String × Player))
    (h : lookupN key ps = some p) : (updAssoc key q ps).length = ps.length := by
  induction ps with
  | nil => simp [lookupN] at h
  | cons kq rest ih =>
    obtain ⟨k, r⟩ := kq
    by_cases hk : k = key
    · subst hk; simp [updAssoc]
    · simp only [lookupN, hk, if_neg hk] at h
      simp [updAssoc, hk, ih h]

theorem killE_ok_length (st st' : RState) (w : String) (ln : Bool)
    (h : killE st w ln = .ok st') : st'.players.length = st.players.length := by
  unfold killE at h
  cases hl : lookupN w st.players with
  | none => rw [hl] at h; cases h
  | some q =>
    rw [hl] at h
    by_cases hq : q.died = none
    · simp only [hq, if_pos] at h
      injection h with h2
      subst h2
      exact updAssoc_length w _ q st.players hl
    · simp [hq] at h
      subst h
      rfl

theorem killAll_ok_length (l : List String) (st st' : RState)
    (h : killAll st l = .ok st') : st'.players.length = st.players.length := by
  induction l generalizing st with
  | nil => simp [killAll] at h; rw [← h]
  | cons dc rest ih =>
    unfold killAll at h
    cases hk : killE st dc true with
    | ok st1 =>
      rw [hk] at h
      rw [ih st1 h, killE_ok_length st st1 dc true hk]
    | error e2 => rw [hk] at h; cases h

theorem judgeList_length (tc : List (String × String)) (st : RState) :
    (judgeList st tc).players.length = st.players.length := by
  induction tc generalizing st with
  | nil => rfl
  | cons nc rest ih =>
    obtain ⟨name, colour⟩ := nc
    unfold judgeList
    split
    · rw [ih]; simp
    · exact ih st

theorem stepMessage_ok_length (st st' : RState) (m : Message)
    (hnp : m.isPlayerInfoB = false)
    (h : stepMessage st m = .ok st') : st'.players.length = st.players.length := by
  cases m with
  | chat a b => injection h with h2; subst h2; rfl
  | deadChat a b => injection h with h2; subst h2; rfl
  | whispering a b => injection h with h2; subst h2; rfl
  | startJunk => injection h with h2; subst h2; rfl
  | deathPop => injection h with h2; subst h2; rfl
  | drawWarning => injection h with h2; subst h2; rfl
  | tribunal w => injection h with h2; subst h2; rfl
  | disconnect w => injection h with h2; subst h2; rfl
  | nightStart n => injection h with h2; subst h2; rfl
  | huntWarning dl =>
    simp only [stepMessage] at h
    split at h <;> (injection h with h2; subst h2; rfl)
  | trialsRemaining c =>
    simp only [stepMessage] at h
    split at h <;> (injection h with h2; subst h2; rfl)
  | playerInfo a gn an role pr v => simp [Message.isPlayerInfoB] at hnp
  | leftAWill w => exact killE_ok_length st st' w false h
  | dayDeath w => exact killE_ok_length st st' w false h
  | nightDeath w => exact killE_ok_length st st' w true h
  | upped w =>
    simp only [stepMessage] at h
    split at h
    · exact killE_ok_length st st' w false h
    · injection h with h2; subst h2; rfl
  | foundGuilty w =>
    simp only [stepMessage] at h
    cases hl : lookupN w st.players with
    | none => simp [hl] at h
    | some q =>
      simp only [hl] at h
      split at h
      · have h1 := killE_ok_length _ st' w false h
        simpa [updAssoc_length w _ q st.players hl] using h1
      · exact killE_ok_length st st' w false h
  | dayStart n =>
    simp only [stepMessage] at h
    split at h
    · injection h with h2
      subst h2
      exact judgeList_length st.townie_colours st
    · cases hka : killAll { st with time := (n, "day"), trial_period := false } st.dced with
      | ok st2 =>
        simp only [hka] at h
        injection h with h2
        subst h2
        have h3 := killAll_ok_length st.dced
          { st with time := (n, "day"), trial_period := false } st2 hka
        exact h3
      | error e2 => simp [hka] at h
  | leftTown w r =>
    simp only [stepMessage] at h
    cases hl : lookupN w st.players with
    | none => simp [hl] at h
    | some them =>
      simp only [hl] at h
      split at h
      · injection h with h2; subst h2; simp
      · injection h with h2
        subst h2
        exact updAssoc_length w _ them st.players hl
  | reconnect w =>
    simp only [stepMessage] at h
    split at h
    · injection h with h2; subst h2; rfl
    · cases hl : lookupN w st.players with
      | none => simp [hl] at h
      | some q =>
        simp only [hl] at h
        injection h with h2
        subst h2
        exact updAssoc_length w _ q st.players hl

theorem runMessages_ok_length (msgs : List Message) (st st' : RState)
    (h : runMessages st msgs = .ok st')
    (hnp : ∀ m ∈ msgs, m.isPlayerInfoB = false) : st'.players.length = st.players.length := by
  induction msgs generalizing st with
  | nil => simp [runMessages] at h; rw [← h]
  | cons m rest ih =>
    unfold runMessages at h
    cases hs : stepMessage st m with
    | ok st1 =>
      rw [hs] at h
      have h1 := ih st1 h (fun x hx => hnp x (List.mem_cons_of_mem m hx))
      rw [h1, stepMessage_ok_length st st1 m (hnp m (List.mem_cons_self m rest)) hs]
    | error e2 => rw [hs] at h; cases h

end Gamelogs

namespace Gamelogs

/-- No roster entry carries the sentinel Unknown as its resolved ending
faction.  This holds in every reachable analyzer state: the sentinel
exists only as the pre-resolution victor value inside result(). -/
def GoodFactions (st : RState) : Prop :=
  ∀ kp ∈ st.players, kp.2.ending_ident.faction ≠ some Faction.unknown

theorem allRoles_no_unknown :
    ∀ r ∈ allRoles, r.default_faction ≠ some Faction.unknown := by decide

theorem by_name_no_unknown (s : String) (r : Role) (h : by_name s = some r) :
    r.default_faction ≠ some Faction.unknown :=
  allRoles_no_unknown r (List.mem_of_find?_eq_some h)

theorem Identity.make_default (r : Role) :
    (Identity.make r).faction = r.default_faction := rfl

theorem killE_good (st st' : RState) (w : String) (ln : Bool)
    (h : killE st w ln = .ok st') (hg : GoodFactions st) : GoodFactions st' := by
  unfold killE at h
  cases hl : lookupN w st.players with
  | none => rw [hl] at h; cases h
  | some q =>
    rw [hl] at h
    by_cases hq : q.died = none
    · simp [hq] at h
      subst h
      intro kp hkp
      rcases mem_updAssoc kp w _ st.players hkp with h1 | h1
      · rw [h1]
        exact hg (w, q) (lookupN_mem w q st.players hl)
      · exact hg kp h1
    · simp [hq] at h
      subst h
      exact hg

theorem killAll_good (l : List String) (st st' : RState)
    (h : killAll st l = .ok st') (hg : GoodFactions st) : GoodFactions st' := by
  induction l generalizing st with
  | nil => simp [killAll] at h; rw [← h]; exact hg
  | cons dc rest ih =>
    unfold killAll at h
    cases hk : killE st dc true with
    | ok st1 =>
      rw [hk] at h
      exact ih st1 h (killE_good st st1 dc true hk hg)
    | error e2 => rw [hk] at h; cases h

theorem judgeList_good (tc : List (String × String)) (st : RState)
    (hg : GoodFactions st) : GoodFactions (judgeList st tc) := by
  induction tc generalizing st with
  | nil => exact hg
  | cons nc rest ih =>
    obtain ⟨name, colour⟩ := nc
    unfold judgeList
    split
    · apply ih
      intro kp hkp
      rcases List.mem_map.mp hkp with ⟨kq, hkq, hmap⟩
      rw [← hmap]
      show (judgeTransform name kq.1 kq.2).ending_ident.faction ≠ some Faction.unknown
      unfold judgeTransform
      split
      · simp
      · exact hg kq hkq
    · exact ih st hg

theorem updAssoc_good (key : String) (p : Player)
    (ps : List (String × Player))
    (hg : ∀ kp ∈ ps, kp.2.ending_ident.faction ≠ some Faction.unknown)
    (hp : p.ending_ident.faction ≠ some Faction.unknown) :
    ∀ kp ∈ updAssoc key p ps, kp.2.ending_ident.faction ≠ some Faction.unknown := by
  intro kp hkp
  rcases mem_updAssoc kp key p ps hkp with h1 | h1
  · rw [h1]; exact hp
  · exact hg kp h1

theorem handlePlayerInfoCore_players (st : RState) (n : Int) (gn an : String)
    (role : String × String) (starting ending0 : Identity) (v : Bool) :
    (handlePlayerInfoCore st n gn an role starting ending0 v).players =
      updAssoc gn
        { number := n, game_name := gn, account_name := an
          starting_ident := starting
          ending_ident :=
            if ending0.role.name ≠ "Vampire" then
              { ending0 with faction := starting.faction }
            else ending0 }
        st.players := by
  unfold handlePlayerInfoCore
  by_cases hv : v <;>
    by_cases h1 : ending0.faction = some Faction.coven <;>
      by_cases h2 : ending0.faction = some Faction.town <;>
        simp [hv, h1, h2]

theorem handlePlayerInfoCore_good (st : RState) (n : Int) (gn an : String)
    (role : String × String) (starting ending0 : Identity) (v : Bool)
    (hg : GoodFactions st)
    (hs : starting.faction ≠ some Faction.unknown)
    (he : ending0.faction ≠ some Faction.unknown) :
    GoodFactions (handlePlayerInfoCore st n gn an role starting ending0 v) := by
  intro kp hkp
  rw [handlePlayerInfoCore_players] at hkp
  refine updAssoc_good gn _ st.players hg ?_ kp hkp
  show (if ending0.role.name ≠ "Vampire" then
      { ending0 with faction := starting.faction } else ending0).faction
    ≠ some Faction.unknown
  split
  · exact hs
  · exact he

theorem stepGood (st st' : RState) (m : Message)
    (h : stepMessage st m = .ok st') (hg : GoodFactions st) : GoodFactions st' := by
  cases m with
  | chat a b => injection h with h2; subst h2; exact hg
  | deadChat a b => injection h with h2; subst h2; exact hg
  | whispering a b => injection h with h2; subst h2; exact hg
  | startJunk => injection h with h2; subst h2; exact hg
  | deathPop => injection h with h2; subst h2; exact hg
  | drawWarning => injection h with h2; subst h2; exact hg
  | tribunal w => injection h with h2; subst h2; exact hg
  | disconnect w => injection h with h2; subst h2; exact hg
  | nightStart n => injection h with h2; subst h2; exact hg
  | huntWarning dl =>
    simp only [stepMessage] at h
    split at h <;> (injection h with h2; subst h2; exact hg)
  | trialsRemaining c =>
    simp only [stepMessage] at h
    split at h <;> (injection h with h2; subst h2; exact hg)
  | leftAWill w => exact killE_good st st' w false h hg
  | dayDeath w => exact killE_good st st' w false h hg
  | nightDeath w => exact killE_good st st' w true h hg
  | upped w =>
    simp only [stepMessage] at h
    split at h
    · exact killE_good st st' w false h hg
    · injection h with h2; subst h2; exact hg
  | foundGuilty w =>
    simp only [stepMessage] at h
    cases hl : lookupN w st.players with
    | none => simp [hl] at h
    | some q =>
      simp only [hl] at h
      split at h
      · refine killE_good _ st' w false h ?_
        intro kp hkp
        rcases mem_updAssoc kp w _ st.players hkp with h1 | h1
        · rw [h1]
          exact hg (w, q) (lookupN_mem w q st.players hl)
        · exact hg kp h1
      · exact killE_good st st' w false h hg
  | dayStart n =>
    simp only [stepMessage] at h
    split at h
    · injection h with h2
      subst h2
      exact judgeList_good st.townie_colours st hg
    · cases hka : killAll { st with time := (n, "day"), trial_period := false } st.dced with
      | ok st2 =>
        simp only [hka] at h
        injection h with h2
        subst h2
        have h3 := killAll_good st.dced
          { st with time := (n, "day"), trial_period := false } st2 hka hg
        exact h3
      | error e2 => simp [hka] at h
  | leftTown w r =>
    simp only [stepMessage] at h
    cases hl : lookupN w st.players with
    | none => simp [hl] at h
    | some them =>
      simp only [hl] at h
      split at h
      · injection h with h2
        subst h2
        intro kp hkp
        rcases List.mem_map.mp hkp with ⟨kq, hkq, hmap⟩
        rw [← hmap]
        show (cursedTransform kq.2).ending_ident.faction ≠ some Faction.unknown
        unfold cursedTransform
        split
        · exact hg kq hkq
        · exact hg kq hkq
      · injection h with h2
        subst h2
        intro kp hkp
        rcases mem_updAssoc kp w _ st.players hkp with h1 | h1
        · rw [h1]
          exact hg (w, them) (lookupN_mem w them st.players hl)
        · exact hg kp h1
  | reconnect w =>
    simp only [stepMessage] at h
    split at h
    · injection h with h2; subst h2; exact hg
    · cases hl : lookupN w st.players with
      | none => simp [hl] at h
      | some q =>
        simp only [hl] at h
        injection h with h2
        subst h2
        intro kp hkp
        rcases mem_updAssoc kp w _ st.players hkp with h1 | h1
        · rw [h1]
          exact hg (w, q) (lookupN_mem w q st.players hl)
        · exact hg kp h1
  | playerInfo a gn an role pr v =>
    simp only [stepMessage, handlePlayerInfo] at h
    cases hr : by_name role.1 with
    | none => simp [hr] at h
    | some er =>
      simp only [hr] at h
      cases pr with
      | none =>
        simp only [] at h
        injection h with h2
        subst h2
        refine handlePlayerInfoCore_good st a gn an role _ _ v hg ?_ ?_ <;>
          (rw [Identity.make_default]; exact by_name_no_unknown role.1 er hr)
      | some prr =>
        cases hr2 : by_name prr.1 with
        | none => simp [hr2] at h
        | some sr =>
          simp only [hr2] at h
          injection h with h2
          subst h2
          refine handlePlayerInfoCore_good st a gn an role _ _ v hg ?_ ?_
          · rw [Identity.make_default]
            exact by_name_no_unknown prr.1 sr hr2
          · rw [Identity.make_default]
            exact by_name_no_unknown role.1 er hr

theorem runGood (msgs : List Message) (st st' : RState)
    (h : runMessages st msgs = .ok st') (hg : GoodFactions st) : GoodFactions st' := by
  induction msgs generalizing st with
  | nil => simp [runMessages] at h; rw [← h]; exact hg
  | cons m rest ih =>
    unfold runMessages at h
    cases hs : stepMessage st m with
    | ok st1 =>
      rw [hs] at h
      exact ih st1 h (stepGood st st1 m hs hg)
    | error e2 => rw [hs] at h; cases h

theorem initGood : GoodFactions initState := by
  intro kp hkp
  simp [initState] at hkp

theorem mem_inGame (st : RState) (f : Option Faction) (h : f ∈ inGame st) :
    ∃ p ∈ rosterValues st, p.ending_ident.faction = f := by
  unfold inGame at h
  rw [List.mem_filter] at h
  rw [List.mem_dedup] at h
  obtain ⟨h1, _⟩ := h
  rcases List.mem_map.mp h1 with ⟨p, hp, hf⟩
  rw [List.mem_filter] at hp
  exact ⟨p, hp.1, hf⟩

end Gamelogs

namespace Gamelogs

/-- C1 (code bug in the source): with at least five recognized players
the pipeline cannot return a GameResult at all.  The final statement of
ResultAnalyzer.result passes six positional arguments to the GameResult
constructor while the dataclass of model.py requires seven (outcome has
no default), so the call raises TypeError instead of producing the
value the claim describes.  Evaluated on the five-player scenario: the
run classifies five players, passes the not-a-log check, resolves the
victor, and then fails with the TypeError. -/
theorem outcomeMissingTypeError :
    parseResultE c1msgs
      = .error (.typeError "GameResult missing required positional argument: outcome")
    ∧ (stateOf c1msgs).players.length = 5 := ⟨rfl, rfl⟩

/-- C2 counterexample: a DayDeath naming an unregistered player makes
the engine fail with an untyped KeyError, which is none of the three
typed BadLogError kinds, refuting the claim that the engine fails only
with the three typed errors. -/
theorem untypedKeyErrorEscapes :
    parseResultE [Message.dayDeath "Dave"] = .error (.keyError "Dave")
    ∧ isTypedError (.keyError "Dave") = false := ⟨rfl, rfl⟩

/-- C2 (amended): besides the three typed errors, the engine can fail
with an untyped exception escaping a line recognizer (to_messages
catches only NotMessage, so e.g. the ValueError from int on a malformed
speaker-number cell in Chat.from_line propagates), with an untyped
KeyError when a message names an unregistered player, and with a
TypeError in the final GameResult constructor call.  Precisely: a
message transition fails only with UnsupportedRoleError or KeyError;
the result stage fails only with NotLogError or TypeError; a line whose
classification is NotMessage is silently dropped, never causing any
error (inserting one anywhere changes nothing); and every failure of
the whole line-level pipeline is a recognizer escape carried by some
crashing line, a message-transition error, or a result-stage error. -/
theorem engineErrorEnumeration :
    (∀ st m e, stepMessage st m = .error e → isStepError e = true)
    ∧ (∀ st e, resultE st = .error e → isResultPhaseError e = true)
    ∧ (∀ (a b : List LineClass) (st : RState),
        runLines st (a ++ .skip :: b) = runLines st (a ++ b))
    ∧ (∀ lines e, parseLines lines = .error e →
        LineClass.crash e ∈ lines ∨ isStepError e = true ∨ isResultPhaseError e = true) :=
  ⟨stepError, resultError, skipLine, parseLines_error_enum⟩

theorem engineErrorEnumeration_witness :
    isStepError (PErr.keyError "Dov") = true
    ∧ runLines initState [LineClass.skip] = runLines initState []
    ∧ (LineClass.crash (PErr.valueError "invalid literal for int")
          ∈ [LineClass.crash (PErr.valueError "invalid literal for int")]
        ∨ isStepError (PErr.valueError "invalid literal for int") = true
        ∨ isResultPhaseError (PErr.valueError "invalid literal for int") = true) :=
  ⟨engineErrorEnumeration.1 initState (Message.dayDeath "Dov") (PErr.keyError "Dov") rfl,
   engineErrorEnumeration.2.2.1 [] [] initState,
   engineErrorEnumeration.2.2.2 [LineClass.crash (PErr.valueError "invalid literal for int")]
     (PErr.valueError "invalid literal for int") rfl⟩

/-- C3 counterexample: syntactically fine input whose only message is a
NightDeath naming an unknown player yields fewer than five classified
players, yet the pipeline fails with a KeyError, not the not-a-log
error the claim promises for every such input. -/
theorem keyErrorBeforeNotLog :
    parseResultE [Message.nightDeath "Eve"] = .error (.keyError "Eve")
    ∧ PErr.keyError "Eve" ≠ PErr.notLog := ⟨rfl, by decide⟩

/-- C3 (amended): when every message of the stream is processed without
raising and fewer than five players were classified, the result fails
with the not-a-log error; in particular a stream containing no
PlayerInfo message at all, processed without raising, fails with the
not-a-log error (and not with the invalid-markup error, which the
message-level pipeline never raises). -/
theorem fewPlayersNotLog (msgs msgs2 : List Message) (st st2 : RState)
    (h1 : runMessages initState msgs = .ok st) (h2 : st.players.length < 5)
    (h3 : runMessages initState msgs2 = .ok st2)
    (h4 : ∀ m ∈ msgs2, m.isPlayerInfoB = false) :
    parseResultE msgs = .error .notLog ∧ parseResultE msgs2 = .error .notLog := by
  constructor
  · unfold parseResultE
    simp only [h1]
    unfold resultE
    rw [if_pos h2]
  · unfold parseResultE
    simp only [h3]
    unfold resultE
    have h5 : st2.players.length = 0 :=
      (runMessages_ok_length msgs2 initState st2 h3 h4).trans rfl
    rw [if_pos (by rw [h5]; norm_num)]

theorem fewPlayersNotLog_witness :
    parseResultE c3amsgs = .error .notLog ∧ parseResultE c3bmsgs = .error .notLog :=
  fewPlayersNotLog c3amsgs c3bmsgs (stateOf c3amsgs) (stateOf c3bmsgs)
    rfl (by decide) rfl (by decide)

/-- C4: in a reachable final state with at least five players, when the
set of distinct ending factions of the undead players (None removed) is
a singleton, that faction is the victor and the tie-break cascade is
neither evaluated nor able to affect the result: for every cascade
function whatsoever the victor phase returns exactly that faction and
the state untouched. -/
theorem singleFactionVictor (msgs : List Message) (st : RState) (f : Option Faction)
    (hrun : runMessages initState msgs = .ok st)
    (_h5 : 5 ≤ st.players.length)
    (h1 : inGame st = [f]) :
    ∀ casc, victorPhaseWith casc st = (f, st) := by
  intro casc
  obtain ⟨p, hp, hf⟩ := mem_inGame st f (by rw [h1]; exact List.mem_singleton_self f)
  have hgood := runGood msgs initState st hrun initGood
  have hfne : f ≠ some Faction.unknown := by
    rw [← hf]
    rcases List.mem_map.mp hp with ⟨kp, hkp, hsnd⟩
    rw [← hsnd]
    exact hgood kp hkp
  unfold victorPhaseWith
  simp only [h1]
  simp [hfne]

theorem singleFactionVictor_witness :
    victorPhaseWith cascadeStep (stateOf c4msgs) = (some Faction.coven, stateOf c4msgs) :=
  singleFactionVictor c4msgs (stateOf c4msgs) (some Faction.coven)
    rfl (by decide) rfl cascadeStep

end Gamelogs

namespace Gamelogs

/-- C5 counterexample: a reachable state that reaches cascade branch f
(two or more alive factions, no death-pop, no hunt match, no draw flag,
no indoctrination, no vampire conversion) in which the Hex Master is
dead and no living player is an evil raiser resolves to the unresolved
sentinel, not to Coven, refuting the claim that a dead Hex Master
yields a Coven win. -/
theorem deadHexMasterNotCoven :
    (victorPhase (stateOf c5cmsgs)).1 = some Faction.unknown
    ∧ some Faction.unknown ≠ some Faction.coven
    ∧ (rosterValues (stateOf c5cmsgs)).any
        (fun p => decide (p.ending_ident.role.name = "Hex Master") && decide (p.died ≠ none))
        = true
    ∧ (rosterValues (stateOf c5cmsgs)).any
        (fun x => decide (x.died = none) && is_evil_raiser x.ending_ident) = false
    ∧ (stateOf c5cmsgs).death_popped = false
    ∧ huntEq (stateOf c5cmsgs).hunt_reached ((stateOf c5cmsgs).time.1 - 3) = false
    ∧ (stateOf c5cmsgs).draw_tomorrow = false
    ∧ indoctrinationCond (stateOf c5cmsgs) (inGame (stateOf c5cmsgs)) = false
    ∧ vampConversionCond (stateOf c5cmsgs) (inGame (stateOf c5cmsgs)) = false
    ∧ (inGame (stateOf c5cmsgs)).length = 3 :=
  ⟨rfl, by decide, rfl, rfl, rfl, rfl, rfl, rfl, rfl, rfl⟩

/-- C5 (amended): in the Hex Master cascade branch, Coven wins exactly
under the source condition: some player ends as Hex Master and the
first such player in roster order is ALIVE, or some living player is an
evil raiser (ending role Necromancer, or Retributionist with a faction
other than Town).  The claim said the branch fires when that player is
dead; the source tests not hm.died, the opposite. -/
theorem hexBranchCoven (st : RState) (hm : Player)
    (h1 : (inGame st).isEmpty = false)
    (h2 : (inGame st).length ≠ 1)
    (h3 : st.death_popped = false)
    (h4 : huntEq st.hunt_reached (st.time.1 - 3) = false)
    (h5 : st.draw_tomorrow = false)
    (h6 : indoctrinationCond st (inGame st) = false)
    (h7 : vampConversionCond st (inGame st) = false)
    (h8 : (rosterValues st).find?
        (fun p => decide (p.ending_ident.role.name = "Hex Master")) = some hm)
    (h9 : hm.died = none ∨
      (rosterValues st).any
        (fun x => decide (x.died = none) && is_evil_raiser x.ending_ident) = true) :
    (victorPhase st).1 = some Faction.coven := by
  have hpath : victorPhase st = cascadeStep st (inGame st) := by
    unfold victorPhase victorPhaseWith
    simp [h1, h2]
  rw [hpath]
  unfold cascadeStep
  rcases h9 with h9 | h9
  · simp [h3, h4, h5, h6, h7, h8, h9]
  · simp [h3, h4, h5, h6, h7, h8, h9]

theorem hexBranchCoven_witness :
    (victorPhase (stateOf c5wmsgs)).1 = some Faction.coven :=
  hexBranchCoven (stateOf c5wmsgs) c5whm rfl (by decide) rfl rfl rfl rfl rfl rfl
    (Or.inl rfl)

/-- C6: a first HuntWarning with three days left while the clock reads
day five sets hunt-reached to day five; any further HuntWarning leaves
a state whose hunt-reached is five unchanged; and a final state on day
eight with hunt-reached five, Town and Coven both alive and death-pop
clear resolves to Coven through the countdown branch, since eight minus
three equals five. -/
theorem huntCountdownScenario (st st2 st3 : RState) (dl : Int)
    (h1 : st.hunt_reached = none) (h2 : st.time.1 = 5)
    (h3 : st2.hunt_reached = some 5)
    (h4 : st3.hunt_reached = some 5) (h5 : st3.time.1 = 8) (h6 : st3.death_popped = false)
    (h7 : some Faction.town ∈ inGame st3) (h8 : some Faction.coven ∈ inGame st3) :
    stepMessage st (.huntWarning 3) = .ok { st with hunt_reached := some 5 }
    ∧ stepMessage st2 (.huntWarning dl) = .ok st2
    ∧ (victorPhase st3).1 = some Faction.coven := by
  refine ⟨?_, ?_, ?_⟩
  · simp only [stepMessage, h1, huntFalsy]
    rw [h2]
    norm_num
  · simp [stepMessage, h3, huntFalsy]
  · have hne : (inGame st3).isEmpty = false := by
      cases hig : inGame st3 with
      | nil => rw [hig] at h7; cases h7
      | cons a l => rfl
    have hlen : (inGame st3).length ≠ 1 := by
      intro hl
      obtain ⟨a, ha⟩ := List.length_eq_one.mp hl
      rw [ha, List.mem_singleton] at h7 h8
      exact absurd (h7.trans h8.symm) (by decide)
    have hpath : victorPhase st3 = cascadeStep st3 (inGame st3) := by
      unfold victorPhase victorPhaseWith
      simp [hne, hlen]
    rw [hpath]
    unfold cascadeStep
    have hh : huntEq st3.hunt_reached (st3.time.1 - 3) = true := by
      rw [h4, h5]
      rfl
    simp [h6, hh]

theorem huntCountdownScenario_witness :
    stepMessage (stateOf [Message.dayStart 5]) (.huntWarning 3)
      = .ok { stateOf [Message.dayStart 5] with hunt_reached := some 5 }
    ∧ stepMessage (stateOf [Message.dayStart 5, .huntWarning 3]) (.huntWarning 4)
      = .ok (stateOf [Message.dayStart 5, .huntWarning 3])
    ∧ (victorPhase (stateOf c6wmsgs)).1 = some Faction.coven :=
  huntCountdownScenario (stateOf [Message.dayStart 5])
    (stateOf [Message.dayStart 5, .huntWarning 3]) (stateOf c6wmsgs) 4
    rfl rfl rfl rfl rfl rfl (by decide) (by decide)

/-- C7: an Upped message in a state without the tribunal flag leaves
the whole state unchanged; with the flag set it is exactly a kill of
the named player; a Tribunal message sets the flag; a NightStart clears
it (and the death-pop flag) while advancing the clock.  Together these
give the claim: Upped records a death exactly when a Tribunal has
occurred since the most recent NightStart. -/
theorem uppedTribunal (st st2 st3 st4 : RState) (who who2 who3 : String) (n : Int)
    (h1 : st.in_trib = false) (h2 : st2.in_trib = true) :
    stepMessage st (.upped who) = .ok st
    ∧ stepMessage st2 (.upped who2) = killE st2 who2 false
    ∧ stepMessage st3 (.tribunal who3) = .ok { st3 with in_trib := true }
    ∧ stepMessage st4 (.nightStart n)
        = .ok { st4 with time := (n, "night"), death_popped := false, in_trib := false } := by
  refine ⟨?_, ?_, rfl, rfl⟩
  · simp [stepMessage, h1]
  · simp [stepMessage, h2]

theorem uppedTribunal_witness :
    stepMessage initState (.upped "Ava") = .ok initState
    ∧ stepMessage { initState with in_trib := true } (.upped "Bix")
        = killE { initState with in_trib := true } "Bix" false
    ∧ stepMessage initState (.tribunal "Mar") = .ok { initState with in_trib := true }
    ∧ stepMessage initState (.nightStart 2)
        = .ok { initState with time := (2, "night"), death_popped := false, in_trib := false } :=
  uppedTribunal initState { initState with in_trib := true } initState initState
    "Ava" "Bix" "Mar" 2 rfl rfl

theorem deathTimeStability_witness :
    c8p.died = some (1, "day")
    ∨ (c8p.died = none ∧ Message.leftAWill "Vic" = Message.reconnect "Vic"
        ∧ "Vic" ∉ (stateOf c8msgs).dced) :=
  deathTimeStability (stateOf c8msgs) (stateOf c8msgs) (.leftAWill "Vic") "Vic"
    c8p c8p (1, "day") rfl rfl rfl rfl rfl

/-- C9 counterexample: a Reconnect naming a player who never appeared
in any PlayerInfo but who is currently in the disconnected set succeeds
without touching the roster, refuting the claim that every Reconnect
naming an unknown player indexes the roster map directly. -/
theorem reconnectUnknownDisconnectedOk :
    stepMessage { initState with dced := ["Ghost"] } (.reconnect "Ghost") = .ok initState
    ∧ lookupN "Ghost" initState.players = none := ⟨rfl, rfl⟩

/-- C9 (amended): each listed message kind naming a player absent from
the roster raises an untyped KeyError rather than one of the three
typed errors: LeftAWill, Upped under a declared tribunal, NightDeath,
DayDeath, FoundGuilty, LeftTown, Reconnect when the named player is not
currently marked disconnected, and DayStart(n) for n other than one
when the disconnected set holds an unknown name. -/
theorem unknownPlayerKeyErrors (st st2 : RState) (who : String) (n : Int) (r : String)
    (h1 : lookupN who st.players = none) (h2 : st.in_trib = true) (h3 : who ∉ st.dced)
    (h4 : lookupN who st2.players = none) (h5 : st2.dced = [who]) (h6 : ¬ n = 1) :
    stepMessage st (.leftAWill who) = .error (.keyError who)
    ∧ stepMessage st (.upped who) = .error (.keyError who)
    ∧ stepMessage st (.nightDeath who) = .error (.keyError who)
    ∧ stepMessage st (.dayDeath who) = .error (.keyError who)
    ∧ stepMessage st (.foundGuilty who) = .error (.keyError who)
    ∧ stepMessage st (.leftTown who r) = .error (.keyError who)
    ∧ stepMessage st (.reconnect who) = .error (.keyError who)
    ∧ stepMessage st2 (.dayStart n) = .error (.keyError who) := by
  refine ⟨?_, ?_, ?_, ?_, ?_, ?_, ?_, ?_⟩
  · simp [stepMessage, killE, h1]
  · simp [stepMessage, killE, h1, h2]
  · simp [stepMessage, killE, h1]
  · simp [stepMessage, killE, h1]
  · simp [stepMessage, h1]
  · simp [stepMessage, h1]
  · simp [stepMessage, h1, h3]
  · simp [stepMessage, h6, h5, killAll, killE, h4]

theorem unknownPlayerKeyErrors_witness :
    stepMessage { initState with in_trib := true } (.leftAWill "Gus")
      = .error (.keyError "Gus")
    ∧ stepMessage { initState with in_trib := true } (.upped "Gus")
      = .error (.keyError "Gus")
    ∧ stepMessage { initState with in_trib := true } (.nightDeath "Gus")
      = .error (.keyError "Gus")
    ∧ stepMessage { initState with in_trib := true } (.dayDeath "Gus")
      = .error (.keyError "Gus")
    ∧ stepMessage { initState with in_trib := true } (.foundGuilty "Gus")
      = .error (.keyError "Gus")
    ∧ stepMessage { initState with in_trib := true } (.leftTown "Gus" "Sheriff")
      = .error (.keyError "Gus")
    ∧ stepMessage { initState with in_trib := true } (.reconnect "Gus")
      = .error (.keyError "Gus")
    ∧ stepMessage { initState with dced := ["Gus"] } (.dayStart 2)
      = .error (.keyError "Gus") :=
  unknownPlayerKeyErrors { initState with in_trib := true }
    { initState with dced := ["Gus"] } "Gus" 2 "Sheriff"
    rfl rfl (by decide) rfl rfl (by decide)

/-- C10: when the victor resolves to None (a draw), the final win-flag
pass marks every player whose ending faction is None (neutral roles
whose resolved faction is the no-faction value) as a winner, because
the None victor compares equal to a None ending faction. -/
theorem drawWinsNoFaction (st st' : RState) (kp : String × Player)
    (_hvic : victorPhase st = (none, st'))
    (hmem : kp ∈ (setWonFlags none st').players)
    (hfac : kp.2.ending_ident.faction = none) :
    kp.2.won = true := by
  unfold setWonFlags at hmem
  rcases List.mem_map.mp hmem with ⟨kq, hkq, hmap⟩
  rw [← hmap] at hfac ⊢
  show (wonTransform none kq.2).won = true
  by_cases hc : kq.2.ending_ident.faction = none
  · simp [wonTransform, hc]
  · rw [show (wonTransform none kq.2) = kq.2 from by simp [wonTransform, hc]] at hfac
    exact absurd hfac hc

theorem drawWinsNoFaction_witness : c10jess.won = true :=
  drawWinsNoFaction (stateOf c10msgs) (stateOf c10msgs) ("Jess", c10jess)
    rfl (by decide) rfl

end Gamelogs
